import Mathlib

/-
Verification of the charting helpers in src/graphs_func.py.

Modelling conventions:
* Python floats are modelled as exact rationals (ℚ); the numeric claims are
  about the algorithm in exact arithmetic.
* pandas Timestamps are modelled as proleptic-Gregorian day numbers
  (days since 1970-01-01, as ℤ).
* `max_ticks` (a Python int) is modelled as ℤ.
-/

/-- Largest `e` with `10 ^ e ≤ n` (for `1 ≤ n ≤ fuel`); a structurally
recursive helper used to compute the floor of the base-10 logarithm. -/
def natLog10 : Nat → Nat → Nat
  | 0, _ => 0
  | fuel + 1, n => if n < 10 then 0 else natLog10 fuel (n / 10) + 1

/-- Smallest `e` with `n ≤ 10 ^ e` (for `1 ≤ n ≤ fuel`); a structurally
recursive helper used to compute the floor of the base-10 logarithm of
rationals below one. -/
def natClog10 : Nat → Nat → Nat
  | 0, _ => 0
  | fuel + 1, n => if n ≤ 1 then 0 else natClog10 fuel ((n + 9) / 10) + 1

/-- `np.floor(np.log10 q)` for a positive rational `q`, in exact arithmetic:
the unique `e : ℤ` with `10 ^ e ≤ q < 10 ^ (e + 1)`. -/
def floorLog10 (q : ℚ) : ℤ :=
  if 1 ≤ q then (natLog10 (Int.toNat ⌊q⌋) (Int.toNat ⌊q⌋) : ℤ)
  else -(natClog10 (Int.toNat ⌈q⁻¹⌉) (Int.toNat ⌈q⁻¹⌉) : ℤ)

/-- `magnitude = 10 ** np.floor(np.log10(max(abs(y_min), abs(y_max))))` from
`adjust_limits`.  At the degenerate all-zero input the float computation is
`10.0 ** np.floor(np.log10(0.0)) = 10.0 ** -inf = 0.0` (no exception is
raised); the explicit zero case models that value. -/
def magnitude (y_min y_max : ℚ) : ℚ :=
  if max |y_min| |y_max| = 0 then 0 else (10 : ℚ) ^ floorLog10 (max |y_min| |y_max|)

/-- `round_base = magnitude / 10` from `adjust_limits`. -/
def round_base (y_min y_max : ℚ) : ℚ := magnitude y_min y_max / 10

/-- `y_min_rounded = np.floor(y_min / round_base) * round_base`
(the provisional lower bound of `adjust_limits`). -/
def y_min_rounded (y_min y_max : ℚ) : ℚ :=
  ⌊y_min / round_base y_min y_max⌋ * round_base y_min y_max

/-- `y_max_rounded = np.ceil(y_max / round_base) * round_base`
(the provisional upper bound of `adjust_limits`). -/
def y_max_rounded (y_min y_max : ℚ) : ℚ :=
  ⌈y_max / round_base y_min y_max⌉ * round_base y_min y_max

/-- The fixed factor list `[0.005, 0.01, 0.025, 0.05, 0.1, 0.25, 0.5, 1, 2, 2.5]`. -/
def step_factors : List ℚ :=
  [5/1000, 1/100, 25/1000, 5/100, 1/10, 25/100, 5/10, 1, 2, 25/10]

/-- `step_candidates = [magnitude * k for k in [0.005, ..., 2.5]]`. -/
def step_candidates (y_min y_max : ℚ) : List ℚ :=
  step_factors.map (fun k => magnitude y_min y_max * k)

/-- The loop condition `(y_max_rounded - y_min_rounded) / step_i <= max_ticks`. -/
def tick_fits (y_min y_max : ℚ) (max_ticks : ℤ) (s : ℚ) : Bool :=
  decide ((y_max_rounded y_min y_max - y_min_rounded y_min y_max) / s ≤ (max_ticks : ℚ))

/-- The step selected by the `for`/`break` loop of `adjust_limits`: the first
candidate satisfying the tick condition, with the initial value
`step = 5 * magnitude` kept when no candidate qualifies. -/
def chosen_step (y_min y_max : ℚ) (max_ticks : ℤ) : ℚ :=
  ((step_candidates y_min y_max).find? (tick_fits y_min y_max max_ticks)).getD
    (5 * magnitude y_min y_max)

/-- `adjust_limits(y_min, y_max, max_ticks)` returning
`(y_min_rounded, y_max_rounded, step)` after the final re-rounding of both
bounds to multiples of the chosen step. -/
def adjust_limits (y_min y_max : ℚ) (max_ticks : ℤ) : ℚ × ℚ × ℚ :=
  let step := chosen_step y_min y_max max_ticks
  (⌊y_min / step⌋ * step, ⌈y_max / step⌉ * step, step)

/-- `get_font_size(text)` from src/graphs_func.py. -/
def get_font_size (text : String) : ℕ :=
  let length := text.length
  if length ≤ 14 then 10
  else if length ≤ 18 then 9
  else if length ≤ 22 then 8
  else 7

/-- A calendar date (the year/month/day view of a pandas Timestamp). -/
structure Date where
  year : ℤ
  month : ℤ
  day : ℤ
deriving DecidableEq

/-- Gregorian leap-year rule. -/
def isLeapYear (y : ℤ) : Bool :=
  (y % 4 = 0 && y % 100 ≠ 0) || y % 400 = 0

/-- Number of days of month `m` of year `y` (`pd.offsets.MonthEnd`). -/
def daysInMonth (y m : ℤ) : ℤ :=
  if m = 2 then (if isLeapYear y then 29 else 28)
  else if m = 4 ∨ m = 6 ∨ m = 9 ∨ m = 11 then 30
  else 31

/-- Day number of a proleptic-Gregorian date, counted from 1970-01-01 = 0
(the calendar model of pandas Timestamps; standard civil-from-days count). -/
def toOrd (y m d : ℤ) : ℤ :=
  let ys := if m ≤ 2 then y - 1 else y
  let ms := if m ≤ 2 then m + 12 else m
  365 * ys + ys / 4 - ys / 100 + ys / 400 + (153 * (ms - 3) + 2) / 5 + d - 1 - 719468

/-- The day number of a `Date`. -/
def Date.ord (dt : Date) : ℤ := toOrd dt.year dt.month dt.day

/-- pandas `Timestamp.weekday()`: Monday = 0, …, Friday = 4, Sunday = 6
(1970-01-01, day number 0, was a Thursday). -/
def weekday (o : ℤ) : ℤ := (o + 3) % 7

/-- `o - pd.offsets.Week(weekday=4)`: the latest Friday strictly before `o`
when `o` is not a Friday, and `o - 7` when `o` is itself a Friday. -/
def subWeekFriday (o : ℤ) : ℤ :=
  let r := (weekday o - 4) % 7
  if r = 0 then o - 7 else o - r

/-- The `last_friday` computation of `calculate_quarterly_dates`:
the day itself when it is a Friday, otherwise the previous Friday. -/
def last_friday (o : ℤ) : ℤ := if weekday o = 4 then o else subWeekFriday o

/-- `target_day`: the last Friday of the given quarter-ending month, shifted
back by `shift_back_days` calendar days. -/
def target_day (year quarter_month shift_back_days : ℤ) : ℤ :=
  last_friday (toOrd year quarter_month (daysInMonth year quarter_month)) - shift_back_days

/-- The fixed quarter-ending month list `[3, 6, 9, 12]`. -/
def quarter_months : List ℤ := [3, 6, 9, 12]

/-- `range(ymin, ymax + 1)` as a list of integers. -/
def year_range (ymin ymax : ℤ) : List ℤ :=
  (List.range (ymax + 1 - ymin).toNat).map (fun (i : ℕ) => ymin + (i : ℤ))

/-- Minimum of a list of integers (`Index.min()`); `none` on the empty list. -/
def listMin : List ℤ → Option ℤ
  | [] => none
  | x :: xs => some (xs.foldl min x)

/-- Maximum of a list of integers (`Index.max()`); `none` on the empty list. -/
def listMax : List ℤ → Option ℤ
  | [] => none
  | x :: xs => some (xs.foldl max x)

/-- The inner `for year in range(...)` loop of `calculate_quarterly_dates` for
one quarter-ending month: emit `target_day` for each year whose target is a
member of the index. -/
def month_anchor_dates (index : List Date) (shift_back_days ymin ymax qm : ℤ) : List ℤ :=
  (year_range ymin ymax).filterMap (fun y =>
    let t := target_day y qm shift_back_days
    if t ∈ index.map Date.ord then some t else none)

/-- `calculate_quarterly_dates(df, shift_back_days)`: the DataFrame is
represented by its `DatetimeIndex`, a list of dates.  The year bounds are
`df.index.year.min()` and `df.index.year.max()`.  On an empty index pandas
returns `NaN` for both bounds and `range(NaN, ...)` raises a `TypeError`;
that failure is modelled by `none`. -/
def calculate_quarterly_dates (index : List Date) (shift_back_days : ℤ) : Option (List ℤ) :=
  match listMin (index.map Date.year), listMax (index.map Date.year) with
  | some ymin, some ymax =>
      some (quarter_months.flatMap (month_anchor_dates index shift_back_days ymin ymax))
  | _, _ => none

/-
Helper lemmas.
-/

theorem natLog10_spec : ∀ fuel n, 1 ≤ n → n ≤ fuel →
    10 ^ natLog10 fuel n ≤ n ∧ n < 10 ^ (natLog10 fuel n + 1) := by
  intro fuel
  induction fuel with
  | zero => intro n h1 h2; omega
  | succ fuel ih =>
    intro n h1 h2
    rw [natLog10]
    by_cases hn : n < 10
    · simp [hn]; omega
    · simp only [hn, if_false]
      have hd1 : 1 ≤ n / 10 := by omega
      have hd2 : n / 10 ≤ fuel := by omega
      obtain ⟨ha, hb⟩ := ih (n / 10) hd1 hd2
      constructor
      · calc 10 ^ (natLog10 fuel (n / 10) + 1) = 10 ^ natLog10 fuel (n / 10) * 10 := by ring
        _ ≤ (n / 10) * 10 := by omega
        _ ≤ n := by omega
      · calc n < (n / 10 + 1) * 10 := by omega
        _ ≤ 10 ^ (natLog10 fuel (n / 10) + 1) * 10 := by
              have : n / 10 + 1 ≤ 10 ^ (natLog10 fuel (n / 10) + 1) := by omega
              omega
        _ = 10 ^ (natLog10 fuel (n / 10) + 1 + 1) := by ring

theorem natClog10_spec : ∀ fuel n, 1 ≤ n → n ≤ fuel →
    n ≤ 10 ^ natClog10 fuel n ∧ (2 ≤ n → 10 ^ (natClog10 fuel n - 1) < n) := by
  intro fuel
  induction fuel with
  | zero => intro n h1 h2; omega
  | succ fuel ih =>
    intro n h1 h2
    rw [natClog10]
    by_cases hn : n ≤ 1
    · simp [hn]; omega
    · simp only [hn, if_false]
      have hd1 : 1 ≤ (n + 9) / 10 := by omega
      have hd2 : (n + 9) / 10 ≤ fuel := by omega
      obtain ⟨ha, hb⟩ := ih ((n + 9) / 10) hd1 hd2
      have hpow : 10 ^ (natClog10 fuel ((n + 9) / 10) + 1) = 10 ^ natClog10 fuel ((n + 9) / 10) * 10 := by ring
      constructor
      · omega
      · intro _
        simp only [Nat.add_sub_cancel]
        by_cases hm : 2 ≤ (n + 9) / 10
        · have hlt := hb hm
          have hcp : 1 ≤ natClog10 fuel ((n + 9) / 10) := by
            by_contra hc
            have h0 : natClog10 fuel ((n + 9) / 10) = 0 := by omega
            rw [h0] at ha
            simp at ha
            omega
          have hEq : 10 ^ (natClog10 fuel ((n + 9) / 10) - 1) * 10
              = 10 ^ natClog10 fuel ((n + 9) / 10) := by
            rw [← pow_succ]
            congr 1
            omega
          omega
        · have hm1 : (n + 9) / 10 = 1 := by omega
          have hz : natClog10 fuel 1 = 0 := by
            cases fuel with
            | zero => rfl
            | succ f => rw [natClog10]; simp
          rw [hm1, hz]
          omega

theorem floorLog10_spec (q : ℚ) (hq : 0 < q) :
    (10 : ℚ) ^ floorLog10 q ≤ q ∧ q < (10 : ℚ) ^ (floorLog10 q + 1) := by
  rw [floorLog10]
  by_cases h1 : 1 ≤ q
  · simp only [h1, if_true]
    have hfl1 : (1 : ℤ) ≤ ⌊q⌋ := Int.le_floor.mpr (by exact_mod_cast h1)
    set n : ℕ := Int.toNat ⌊q⌋ with hn
    have hcast : (n : ℤ) = ⌊q⌋ := Int.toNat_of_nonneg (by omega)
    have hn1 : 1 ≤ n := by omega
    obtain ⟨ha, hb⟩ := natLog10_spec n n hn1 le_rfl
    constructor
    · rw [zpow_natCast]
      calc (10 : ℚ) ^ natLog10 n n = ((10 ^ natLog10 n n : ℕ) : ℚ) := by push_cast; ring
        _ ≤ (n : ℚ) := by exact_mod_cast ha
        _ = ((⌊q⌋ : ℤ) : ℚ) := by rw [← hcast]; push_cast; ring
        _ ≤ q := Int.floor_le q
    · have : ((natLog10 n n : ℤ) + 1) = ((natLog10 n n + 1 : ℕ) : ℤ) := by push_cast; ring
      rw [this, zpow_natCast]
      calc q < ((⌊q⌋ : ℤ) : ℚ) + 1 := Int.lt_floor_add_one q
        _ = (n : ℚ) + 1 := by rw [← hcast]; push_cast; ring
        _ ≤ ((10 ^ (natLog10 n n + 1) : ℕ) : ℚ) := by exact_mod_cast hb
        _ = (10 : ℚ) ^ (natLog10 n n + 1) := by push_cast; ring
  · simp only [h1, if_false]
    push_neg at h1
    have hr1 : 1 < q⁻¹ := by
      rw [lt_inv_comm₀ one_pos hq]
      simpa using h1
    have hc2 : (2 : ℤ) ≤ ⌈q⁻¹⌉ := by
      have : (1 : ℤ) < ⌈q⁻¹⌉ := Int.lt_ceil.mpr (by exact_mod_cast hr1)
      omega
    set n : ℕ := Int.toNat ⌈q⁻¹⌉ with hn
    have hcast : (n : ℤ) = ⌈q⁻¹⌉ := Int.toNat_of_nonneg (by omega)
    have hn2 : 2 ≤ n := by omega
    obtain ⟨ha, hb⟩ := natClog10_spec n n (by omega) le_rfl
    have hb2 := hb hn2
    set e : ℕ := natClog10 n n with he
    have he1 : 1 ≤ e := by
      by_contra hc
      have : e = 0 := by omega
      rw [this] at ha
      simp at ha
      omega
    have hkey : q⁻¹ ≤ (10 : ℚ) ^ (e : ℕ) := by
      calc q⁻¹ ≤ ((⌈q⁻¹⌉ : ℤ) : ℚ) := Int.le_ceil q⁻¹
        _ = (n : ℚ) := by rw [← hcast]; push_cast; ring
        _ ≤ ((10 ^ e : ℕ) : ℚ) := by exact_mod_cast ha
        _ = (10 : ℚ) ^ (e : ℕ) := by push_cast; ring
    have hkey2 : (10 : ℚ) ^ ((e - 1 : ℕ)) < q⁻¹ := by
      calc (10 : ℚ) ^ ((e - 1 : ℕ)) = ((10 ^ (e - 1) : ℕ) : ℚ) := by push_cast; ring
        _ ≤ (n : ℚ) - 1 := by
            have hc : ((10 ^ (e - 1) : ℕ) : ℚ) + 1 ≤ (n : ℚ) := by exact_mod_cast hb2
            linarith
        _ < q⁻¹ := by
            have hcl : ((⌈q⁻¹⌉ : ℤ) : ℚ) < q⁻¹ + 1 := by exact_mod_cast Int.ceil_lt_add_one q⁻¹
            rw [← hcast] at hcl
            push_cast at hcl
            linarith
    constructor
    · rw [zpow_neg, zpow_natCast]
      calc ((10 : ℚ) ^ (e : ℕ))⁻¹ ≤ (q⁻¹)⁻¹ := by
            apply inv_anti₀ (by positivity) hkey
        _ = q := inv_inv q
    · have hexp : (-(e : ℤ) + 1) = -(((e - 1 : ℕ)) : ℤ) := by omega
      rw [hexp, zpow_neg, zpow_natCast]
      calc q = (q⁻¹)⁻¹ := (inv_inv q).symm
        _ < ((10 : ℚ) ^ ((e - 1 : ℕ)))⁻¹ := by
            apply inv_strictAnti₀ (by positivity) hkey2

theorem floor_mul_le (y s : ℚ) (hs : 0 < s) : (⌊y / s⌋ : ℚ) * s ≤ y := by
  rw [← le_div_iff₀ hs]
  exact Int.floor_le _

theorem le_ceil_mul (y s : ℚ) (hs : 0 < s) : y ≤ (⌈y / s⌉ : ℚ) * s := by
  rw [← div_le_iff₀ hs]
  exact Int.le_ceil _

theorem magnitude_pos (y_min y_max : ℚ) (h : 0 < max |y_min| |y_max|) :
    0 < magnitude y_min y_max := by
  rw [magnitude, if_neg (ne_of_gt h)]
  positivity

theorem round_base_pos (y_min y_max : ℚ) (h : 0 < max |y_min| |y_max|) :
    0 < round_base y_min y_max := by
  rw [round_base]
  exact div_pos (magnitude_pos y_min y_max h) (by norm_num)

theorem step_factors_pos : ∀ k ∈ step_factors, 0 < k := by
  intro k hk
  simp only [step_factors, List.mem_cons, List.not_mem_nil, or_false] at hk
  rcases hk with rfl | rfl | rfl | rfl | rfl | rfl | rfl | rfl | rfl | rfl <;> norm_num

theorem step_candidates_pos (y_min y_max : ℚ) (h : 0 < max |y_min| |y_max|) :
    ∀ s ∈ step_candidates y_min y_max, 0 < s := by
  intro s hs
  simp only [step_candidates, List.mem_map] at hs
  obtain ⟨k, hk, rfl⟩ := hs
  exact mul_pos (magnitude_pos y_min y_max h) (step_factors_pos k hk)

theorem step_candidates_sorted (y_min y_max : ℚ) (h : 0 < max |y_min| |y_max|) :
    (step_candidates y_min y_max).Pairwise (· ≤ ·) := by
  rw [step_candidates]
  apply List.Pairwise.map (R := (· ≤ ·))
  · intro a b hab
    exact mul_le_mul_of_nonneg_left hab (le_of_lt (magnitude_pos y_min y_max h))
  · norm_num [step_factors, List.pairwise_cons]

theorem chosen_step_pos (y_min y_max : ℚ) (T : ℤ) (h : 0 < max |y_min| |y_max|) :
    0 < chosen_step y_min y_max T := by
  rw [chosen_step]
  rcases hf : (step_candidates y_min y_max).find? (tick_fits y_min y_max T) with _ | s
  · simpa using mul_pos (by norm_num : (0:ℚ) < 5) (magnitude_pos y_min y_max h)
  · simpa using step_candidates_pos y_min y_max h s (List.mem_of_find?_eq_some hf)

theorem find?_min_of_sorted {p : ℚ → Bool} :
    ∀ {l : List ℚ}, l.Pairwise (· ≤ ·) → ∀ {a : ℚ}, l.find? p = some a →
      ∀ b ∈ l, p b = true → a ≤ b := by
  intro l
  induction l with
  | nil => intro _ a ha; simp at ha
  | cons x xs ih =>
    intro hp a ha b hb hpb
    rcases hx : p x with _ | _
    · rw [List.find?_cons_of_neg _ (by simp [hx])] at ha
      rcases List.mem_cons.mp hb with rfl | hb2
      · rw [hx] at hpb; exact absurd hpb (by simp)
      · exact ih (List.Pairwise.of_cons hp) ha b hb2 hpb
    · rw [List.find?_cons_of_pos _ hx] at ha
      have hax : a = x := by
        injection ha with ha2
        exact ha2.symm
      subst hax
      rcases List.mem_cons.mp hb with rfl | hb2
      · exact le_refl _
      · exact (List.pairwise_cons.mp hp).1 b hb2

theorem tick_fits_iff (y_min y_max : ℚ) (T : ℤ) (s : ℚ) :
    tick_fits y_min y_max T s = true ↔
      (y_max_rounded y_min y_max - y_min_rounded y_min y_max) / s ≤ (T : ℚ) := by
  rw [tick_fits, decide_eq_true_eq]

theorem chosen_step_spec (y_min y_max : ℚ) (T : ℤ) (h0 : 0 < max |y_min| |y_max|)
    (hex : ∃ s ∈ step_candidates y_min y_max,
      (y_max_rounded y_min y_max - y_min_rounded y_min y_max) / s ≤ (T : ℚ)) :
    chosen_step y_min y_max T ∈ step_candidates y_min y_max ∧
    (y_max_rounded y_min y_max - y_min_rounded y_min y_max) / chosen_step y_min y_max T ≤ (T : ℚ) ∧
    ∀ s ∈ step_candidates y_min y_max,
      (y_max_rounded y_min y_max - y_min_rounded y_min y_max) / s ≤ (T : ℚ) →
        chosen_step y_min y_max T ≤ s := by
  have hex2 : ∃ s ∈ step_candidates y_min y_max, tick_fits y_min y_max T s = true := by
    obtain ⟨s, hs, hfit⟩ := hex
    exact ⟨s, hs, (tick_fits_iff y_min y_max T s).mpr hfit⟩
  have hsome : ((step_candidates y_min y_max).find? (tick_fits y_min y_max T)).isSome = true :=
    List.find?_isSome.mpr hex2
  obtain ⟨a, ha⟩ := Option.isSome_iff_exists.mp hsome
  have hcs : chosen_step y_min y_max T = a := by
    rw [chosen_step, ha, Option.getD_some]
  refine ⟨?_, ?_, ?_⟩
  · rw [hcs]; exact List.mem_of_find?_eq_some ha
  · rw [hcs]; exact (tick_fits_iff y_min y_max T a).mp (List.find?_some ha)
  · intro s hs hfit
    rw [hcs]
    exact find?_min_of_sorted (step_candidates_sorted y_min y_max h0) ha s hs
      ((tick_fits_iff y_min y_max T s).mpr hfit)

theorem chosen_step_of_none (y_min y_max : ℚ) (T : ℤ)
    (hall : ∀ s ∈ step_candidates y_min y_max,
      ¬ (y_max_rounded y_min y_max - y_min_rounded y_min y_max) / s ≤ (T : ℚ)) :
    chosen_step y_min y_max T = 5 * magnitude y_min y_max := by
  have hnone : (step_candidates y_min y_max).find? (tick_fits y_min y_max T) = none := by
    rw [List.find?_eq_none]
    intro s hs
    simpa [tick_fits_iff] using hall s hs
  rw [chosen_step, hnone, Option.getD_none]

/-- C2: for `low ≤ high` with `max(|low|,|high|) > 0`, `adjust_limits` returns a
lower bound `≤ low`, an upper bound `≥ high` (the input range is never shrunk)
and a strictly positive step. -/
theorem adjust_limits_expands (y_min y_max : ℚ) (max_ticks : ℤ)
    (hle : y_min ≤ y_max) (h0 : 0 < max |y_min| |y_max|) :
    (adjust_limits y_min y_max max_ticks).1 ≤ y_min ∧
    y_max ≤ (adjust_limits y_min y_max max_ticks).2.1 ∧
    0 < (adjust_limits y_min y_max max_ticks).2.2 := by
  have hst := chosen_step_pos y_min y_max max_ticks h0
  simp only [adjust_limits]
  exact ⟨floor_mul_le y_min _ hst, le_ceil_mul y_max _ hst, hst⟩

/-- C1 (amended): under the claim's hypotheses the tick-count cap holds for the
provisional bounds, and the final re-rounded bounds satisfy the cap relaxed by
one: `(max - min) / step ≤ max_ticks + 1`.  The exact cap `≤ max_ticks` fails
on the final bounds (see the counterexample). -/
theorem adjust_limits_tick_bound (y_min y_max : ℚ) (max_ticks : ℤ)
    (hle : y_min ≤ y_max) (h0 : 0 < max |y_min| |y_max|) (hT : 0 < max_ticks)
    (hex : ∃ s ∈ step_candidates y_min y_max,
      (y_max_rounded y_min y_max - y_min_rounded y_min y_max) / s ≤ (max_ticks : ℚ)) :
    (y_max_rounded y_min y_max - y_min_rounded y_min y_max) /
        chosen_step y_min y_max max_ticks ≤ (max_ticks : ℚ) ∧
    ((adjust_limits y_min y_max max_ticks).2.1 - (adjust_limits y_min y_max max_ticks).1) /
        (adjust_limits y_min y_max max_ticks).2.2 ≤ (max_ticks : ℚ) + 1 := by
  obtain ⟨hmem, hfit, -⟩ := chosen_step_spec y_min y_max max_ticks h0 hex
  have hst : 0 < chosen_step y_min y_max max_ticks := chosen_step_pos _ _ _ h0
  refine ⟨hfit, ?_⟩
  simp only [adjust_limits]
  set st := chosen_step y_min y_max max_ticks with hstdef
  have hstne : st ≠ 0 := ne_of_gt hst
  have hrb : 0 < round_base y_min y_max := round_base_pos _ _ h0
  have hpm : y_min_rounded y_min y_max ≤ y_min := floor_mul_le _ _ hrb
  have hpM : y_max ≤ y_max_rounded y_min y_max := le_ceil_mul _ _ hrb
  have hdiv : ((⌈y_max / st⌉ : ℚ) * st - (⌊y_min / st⌋ : ℚ) * st) / st
      = (⌈y_max / st⌉ : ℚ) - (⌊y_min / st⌋ : ℚ) := by
    rw [← sub_mul, mul_div_cancel_right₀ _ hstne]
  rw [hdiv]
  have h1 : (⌈y_max / st⌉ : ℚ) < y_max / st + 1 := Int.ceil_lt_add_one _
  have h2 : y_min / st - 1 < (⌊y_min / st⌋ : ℚ) := Int.sub_one_lt_floor _
  have h3 : (y_max - y_min) / st ≤
      (y_max_rounded y_min y_max - y_min_rounded y_min y_max) / st :=
    (div_le_div_right hst).mpr (by linarith)
  have h4 : (y_max - y_min) / st = y_max / st - y_min / st := sub_div _ _ _
  have h5 : (⌈y_max / st⌉ : ℚ) - (⌊y_min / st⌋ : ℚ) < (max_ticks : ℚ) + 2 := by
    rw [h4] at h3
    linarith
  have h7 : ⌈y_max / st⌉ - ⌊y_min / st⌋ < max_ticks + 2 := by exact_mod_cast h5
  have h8 : ⌈y_max / st⌉ - ⌊y_min / st⌋ ≤ max_ticks + 1 := by omega
  calc (⌈y_max / st⌉ : ℚ) - (⌊y_min / st⌋ : ℚ)
      = ((⌈y_max / st⌉ - ⌊y_min / st⌋ : ℤ) : ℚ) := by push_cast; ring
    _ ≤ ((max_ticks + 1 : ℤ) : ℚ) := by exact_mod_cast h8
    _ = (max_ticks : ℚ) + 1 := by push_cast; ring

/-- C3 (amended): if some candidate in the ascending list
`magnitude * [0.005, ..., 2.5]` satisfies the tick condition on the provisional
bounds, the selected step is a qualifying candidate and is minimal among all
qualifying candidates (the first/smallest one); if no candidate qualifies,
the step is the loop's initial value `5 * magnitude` — twice the largest
candidate `2.5 * magnitude`, not the largest candidate itself. -/
theorem chosen_step_selection (y_min y_max : ℚ) (max_ticks : ℤ)
    (h0 : 0 < max |y_min| |y_max|) :
    ((∃ s ∈ step_candidates y_min y_max,
        (y_max_rounded y_min y_max - y_min_rounded y_min y_max) / s ≤ (max_ticks : ℚ)) →
      chosen_step y_min y_max max_ticks ∈ step_candidates y_min y_max ∧
      (y_max_rounded y_min y_max - y_min_rounded y_min y_max) /
          chosen_step y_min y_max max_ticks ≤ (max_ticks : ℚ) ∧
      ∀ s ∈ step_candidates y_min y_max,
        (y_max_rounded y_min y_max - y_min_rounded y_min y_max) / s ≤ (max_ticks : ℚ) →
          chosen_step y_min y_max max_ticks ≤ s) ∧
    ((∀ s ∈ step_candidates y_min y_max,
        ¬ (y_max_rounded y_min y_max - y_min_rounded y_min y_max) / s ≤ (max_ticks : ℚ)) →
      chosen_step y_min y_max max_ticks = 5 * magnitude y_min y_max) :=
  ⟨fun hex => chosen_step_spec y_min y_max max_ticks h0 hex,
   fun hall => chosen_step_of_none y_min y_max max_ticks hall⟩

theorem mag_003_097 : magnitude (3/100 : ℚ) (97/100 : ℚ) = 1/10 := by
  have h1 : max |(3 : ℚ)/100| |(97 : ℚ)/100| = 97/100 := by
    rw [abs_of_nonneg (by norm_num : (0:ℚ) ≤ 3/100),
      abs_of_nonneg (by norm_num : (0:ℚ) ≤ 97/100)]
    norm_num
  have hinv : ((97 : ℚ)/100)⁻¹ = 100/97 := by norm_num
  have hceil : ⌈(100 : ℚ)/97⌉ = 2 := by
    rw [Int.ceil_eq_iff]
    refine ⟨by norm_num, by norm_num⟩
  have hclog : natClog10 (Int.toNat 2) (Int.toNat 2) = 1 := by decide
  rw [magnitude, h1, if_neg (by norm_num), floorLog10, if_neg (by norm_num), hinv, hceil, hclog]
  norm_num

theorem prov_min_003_097 : y_min_rounded (3/100 : ℚ) (97/100 : ℚ) = 3/100 := by
  rw [y_min_rounded, round_base, mag_003_097]
  rw [show (3 : ℚ)/100 / (1/10/10) = 3 by norm_num]
  rw [show ⌊(3 : ℚ)⌋ = 3 by norm_num]
  norm_num

theorem prov_max_003_097 : y_max_rounded (3/100 : ℚ) (97/100 : ℚ) = 97/100 := by
  rw [y_max_rounded, round_base, mag_003_097]
  rw [show (97 : ℚ)/100 / (1/10/10) = 97 by norm_num]
  rw [show ⌈(97 : ℚ)⌉ = 97 by rw [Int.ceil_eq_iff]; refine ⟨by norm_num, by norm_num⟩]
  norm_num

theorem chosen_003_097 : chosen_step (3/100 : ℚ) (97/100 : ℚ) 10 = 1/10 := by
  rw [chosen_step, step_candidates, mag_003_097, step_factors]
  simp only [List.map_cons, List.map_nil]
  rw [List.find?_cons_of_neg _
    (by simp only [tick_fits_iff, prov_min_003_097, prov_max_003_097]; norm_num)]
  rw [List.find?_cons_of_neg _
    (by simp only [tick_fits_iff, prov_min_003_097, prov_max_003_097]; norm_num)]
  rw [List.find?_cons_of_neg _
    (by simp only [tick_fits_iff, prov_min_003_097, prov_max_003_097]; norm_num)]
  rw [List.find?_cons_of_neg _
    (by simp only [tick_fits_iff, prov_min_003_097, prov_max_003_097]; norm_num)]
  rw [List.find?_cons_of_neg _
    (by simp only [tick_fits_iff, prov_min_003_097, prov_max_003_097]; norm_num)]
  rw [List.find?_cons_of_neg _
    (by simp only [tick_fits_iff, prov_min_003_097, prov_max_003_097]; norm_num)]
  rw [List.find?_cons_of_neg _
    (by simp only [tick_fits_iff, prov_min_003_097, prov_max_003_097]; norm_num)]
  rw [List.find?_cons_of_pos _
    (by simp only [tick_fits, prov_min_003_097, prov_max_003_097]; norm_num)]
  rw [Option.getD_some]
  norm_num

/-- C4 (amended): for low = 0.03, high = 0.97, max_ticks = 10 the code computes
magnitude 0.1 and returns min = 0.0, max = 1.0 and step = 0.1 (the candidate
0.025 does not qualify: (0.97 - 0.03) / 0.025 = 37.6 > 10). -/
theorem adjust_limits_003_097 :
    magnitude (3/100 : ℚ) (97/100 : ℚ) = 1/10 ∧
    adjust_limits (3/100 : ℚ) (97/100 : ℚ) 10 = (0, 1, 1/10) := by
  refine ⟨mag_003_097, ?_⟩
  simp only [adjust_limits, chosen_003_097]
  rw [show (3 : ℚ)/100 / (1/10) = 3/10 by norm_num]
  rw [show ⌊(3 : ℚ)/10⌋ = 0 by norm_num]
  rw [show (97 : ℚ)/100 / (1/10) = 97/10 by norm_num]
  rw [show ⌈(97 : ℚ)/10⌉ = 10 by rw [Int.ceil_eq_iff]; refine ⟨by norm_num, by norm_num⟩]
  norm_num

/-- C4 (counterexample): the claimed step 0.025 is wrong; the returned step at
(0.03, 0.97, 10) is 0.1. -/
theorem adjust_limits_003_097_cex :
    (adjust_limits (3/100 : ℚ) (97/100 : ℚ) 10).2.2 ≠ 1/40 := by
  simp only [adjust_limits, chosen_003_097]
  norm_num

theorem mag_m505_41 : magnitude (-101/20 : ℚ) (41/10 : ℚ) = 1 := by
  have h1 : max |(-101 : ℚ)/20| |(41 : ℚ)/10| = 101/20 := by
    rw [abs_of_nonpos (by norm_num : (-101 : ℚ)/20 ≤ 0),
      abs_of_nonneg (by norm_num : (0:ℚ) ≤ 41/10)]
    norm_num
  have hfloor : ⌊(101 : ℚ)/20⌋ = 5 := by norm_num
  have hlog : natLog10 (Int.toNat 5) (Int.toNat 5) = 0 := by decide
  rw [magnitude, h1, if_neg (by norm_num), floorLog10, if_pos (by norm_num), hfloor, hlog]
  norm_num

theorem prov_min_m505_41 : y_min_rounded (-101/20 : ℚ) (41/10 : ℚ) = -51/10 := by
  rw [y_min_rounded, round_base, mag_m505_41]
  rw [show (-101 : ℚ)/20 / (1/10) = -101/2 by norm_num]
  rw [show ⌊(-101 : ℚ)/2⌋ = -51 by norm_num]
  norm_num

theorem prov_max_m505_41 : y_max_rounded (-101/20 : ℚ) (41/10 : ℚ) = 41/10 := by
  rw [y_max_rounded, round_base, mag_m505_41]
  rw [show (41 : ℚ)/10 / (1/10) = 41 by norm_num]
  rw [show ⌈(41 : ℚ)⌉ = 41 by rw [Int.ceil_eq_iff]; refine ⟨by norm_num, by norm_num⟩]
  norm_num

theorem chosen_m505_41 : chosen_step (-101/20 : ℚ) (41/10 : ℚ) 10 = 1 := by
  rw [chosen_step, step_candidates, mag_m505_41, step_factors]
  simp only [List.map_cons, List.map_nil]
  rw [List.find?_cons_of_neg _
    (by simp only [tick_fits_iff, prov_min_m505_41, prov_max_m505_41]; norm_num)]
  rw [List.find?_cons_of_neg _
    (by simp only [tick_fits_iff, prov_min_m505_41, prov_max_m505_41]; norm_num)]
  rw [List.find?_cons_of_neg _
    (by simp only [tick_fits_iff, prov_min_m505_41, prov_max_m505_41]; norm_num)]
  rw [List.find?_cons_of_neg _
    (by simp only [tick_fits_iff, prov_min_m505_41, prov_max_m505_41]; norm_num)]
  rw [List.find?_cons_of_neg _
    (by simp only [tick_fits_iff, prov_min_m505_41, prov_max_m505_41]; norm_num)]
  rw [List.find?_cons_of_neg _
    (by simp only [tick_fits_iff, prov_min_m505_41, prov_max_m505_41]; norm_num)]
  rw [List.find?_cons_of_neg _
    (by simp only [tick_fits_iff, prov_min_m505_41, prov_max_m505_41]; norm_num)]
  rw [List.find?_cons_of_pos _
    (by simp only [tick_fits, prov_min_m505_41, prov_max_m505_41]; norm_num)]
  rw [Option.getD_some]
  norm_num

/-- C1 (counterexample): at low = -5.05, high = 4.1, max_ticks = 10, a
qualifying candidate exists (step 1, with provisional tick count 9.2), yet the
final re-rounded bounds are min = -6, max = 5, giving (5 - (-6)) / 1 = 11 > 10
ticks: the claimed cap on the final bounds fails. -/
theorem adjust_limits_tick_bound_cex :
    ((-101 : ℚ)/20 ≤ 41/10 ∧ 0 < max |(-101 : ℚ)/20| |(41 : ℚ)/10| ∧ (0 : ℤ) < 10 ∧
      ∃ s ∈ step_candidates (-101/20 : ℚ) (41/10 : ℚ),
        (y_max_rounded (-101/20 : ℚ) (41/10 : ℚ) - y_min_rounded (-101/20 : ℚ) (41/10 : ℚ)) / s
          ≤ ((10 : ℤ) : ℚ)) ∧
    ¬ ((adjust_limits (-101/20 : ℚ) (41/10 : ℚ) 10).2.1 -
          (adjust_limits (-101/20 : ℚ) (41/10 : ℚ) 10).1) /
        (adjust_limits (-101/20 : ℚ) (41/10 : ℚ) 10).2.2 ≤ ((10 : ℤ) : ℚ) := by
  constructor
  · refine ⟨by norm_num, ?_, by norm_num, ?_⟩
    · rw [show max |(-101 : ℚ)/20| |(41 : ℚ)/10| = 101/20 by
        rw [abs_of_nonpos (by norm_num : (-101 : ℚ)/20 ≤ 0),
          abs_of_nonneg (by norm_num : (0:ℚ) ≤ 41/10)]
        norm_num]
      norm_num
    · refine ⟨1, ?_, ?_⟩
      · rw [step_candidates, mag_m505_41, step_factors]
        simp only [List.map_cons, List.map_nil, List.mem_cons, List.not_mem_nil, or_false]
        norm_num
      · rw [prov_min_m505_41, prov_max_m505_41]
        norm_num
  · simp only [adjust_limits, chosen_m505_41]
    rw [show (-101 : ℚ)/20 / 1 = -101/20 by norm_num]
    rw [show ⌊(-101 : ℚ)/20⌋ = -6 by norm_num]
    rw [show (41 : ℚ)/10 / 1 = 41/10 by norm_num]
    rw [show ⌈(41 : ℚ)/10⌉ = 5 by rw [Int.ceil_eq_iff]; refine ⟨by norm_num, by norm_num⟩]
    norm_num

theorem mag_m9_9 : magnitude (-9 : ℚ) (9 : ℚ) = 1 := by
  have h1 : max |(-9 : ℚ)| |(9 : ℚ)| = 9 := by
    rw [abs_of_nonpos (by norm_num : (-9 : ℚ) ≤ 0), abs_of_nonneg (by norm_num : (0:ℚ) ≤ 9)]
    norm_num
  have hfloor : ⌊(9 : ℚ)⌋ = 9 := by norm_num
  have hlog : natLog10 (Int.toNat 9) (Int.toNat 9) = 0 := by decide
  rw [magnitude, h1, if_neg (by norm_num), floorLog10, if_pos (by norm_num), hfloor, hlog]
  norm_num

theorem prov_min_m9_9 : y_min_rounded (-9 : ℚ) (9 : ℚ) = -9 := by
  rw [y_min_rounded, round_base, mag_m9_9]
  rw [show (-9 : ℚ) / (1/10) = -90 by norm_num]
  rw [show ⌊(-90 : ℚ)⌋ = -90 by norm_num]
  norm_num

theorem prov_max_m9_9 : y_max_rounded (-9 : ℚ) (9 : ℚ) = 9 := by
  rw [y_max_rounded, round_base, mag_m9_9]
  rw [show (9 : ℚ) / (1/10) = 90 by norm_num]
  rw [show ⌈(90 : ℚ)⌉ = 90 by rw [Int.ceil_eq_iff]; refine ⟨by norm_num, by norm_num⟩]
  norm_num

theorem no_fit_m9_9 : ∀ s ∈ step_candidates (-9 : ℚ) (9 : ℚ),
    ¬ (y_max_rounded (-9 : ℚ) (9 : ℚ) - y_min_rounded (-9 : ℚ) (9 : ℚ)) / s ≤ ((1 : ℤ) : ℚ) := by
  intro s hs
  rw [step_candidates, mag_m9_9, step_factors] at hs
  rw [prov_min_m9_9, prov_max_m9_9]
  simp only [List.map_cons, List.map_nil, List.mem_cons, List.not_mem_nil, or_false] at hs
  rcases hs with rfl | rfl | rfl | rfl | rfl | rfl | rfl | rfl | rfl | rfl <;> norm_num

/-- C3 (counterexample): at low = -9, high = 9, max_ticks = 1 no candidate
qualifies, and the returned step is the loop's initial value 5 * magnitude = 5,
not the largest candidate 2.5 * magnitude = 2.5 as claimed. -/
theorem chosen_step_selection_cex :
    (∀ s ∈ step_candidates (-9 : ℚ) (9 : ℚ),
      ¬ (y_max_rounded (-9 : ℚ) (9 : ℚ) - y_min_rounded (-9 : ℚ) (9 : ℚ)) / s ≤ ((1 : ℤ) : ℚ)) ∧
    (adjust_limits (-9 : ℚ) (9 : ℚ) 1).2.2 = 5 ∧
    (adjust_limits (-9 : ℚ) (9 : ℚ) 1).2.2 ≠ 25/10 * magnitude (-9 : ℚ) (9 : ℚ) := by
  have hstep : chosen_step (-9 : ℚ) (9 : ℚ) 1 = 5 := by
    rw [chosen_step_of_none _ _ _ no_fit_m9_9, mag_m9_9]
    norm_num
  refine ⟨no_fit_m9_9, ?_, ?_⟩
  · simp only [adjust_limits, hstep]
  · simp only [adjust_limits, hstep, mag_m9_9]
    norm_num

/-- C5 (counterexample): on the degenerate all-zero range the source raises
nothing — it defines no DomainError and has no raising path; the float code
returns the zero-step sentinel (nan, nan, 0.0).  In the exact model the call
returns the value (0, 0, 0): in particular the step component is 0 and a
normal result is produced. -/
theorem adjust_limits_zero_cex : adjust_limits (0 : ℚ) (0 : ℚ) 10 = (0, 0, 0) := by
  have hmag : magnitude (0 : ℚ) (0 : ℚ) = 0 := by
    rw [magnitude, if_pos]
    simp
  have hpm : y_min_rounded (0 : ℚ) (0 : ℚ) = 0 := by
    rw [y_min_rounded, round_base, hmag]
    simp
  have hpM : y_max_rounded (0 : ℚ) (0 : ℚ) = 0 := by
    rw [y_max_rounded, round_base, hmag]
    simp
  have hstep : chosen_step (0 : ℚ) (0 : ℚ) 10 = 0 := by
    rw [chosen_step, step_candidates, hmag, step_factors]
    simp only [List.map_cons, List.map_nil]
    rw [List.find?_cons_of_pos _ (by simp only [tick_fits_iff, hpm, hpM]; norm_num)]
    rw [Option.getD_some]
    norm_num
  simp only [adjust_limits, hstep]
  norm_num

/-- C5 (amended): for the all-zero input `adjust_limits` returns normally for
every max_ticks value, with a zero step (the zero-step sentinel); no exception
exists or is raised. -/
theorem adjust_limits_zero_step : ∀ T : ℤ, (adjust_limits (0 : ℚ) (0 : ℚ) T).2.2 = 0 := by
  intro T
  have hmag : magnitude (0 : ℚ) (0 : ℚ) = 0 := by
    rw [magnitude, if_pos]
    simp
  simp only [adjust_limits]
  rw [chosen_step]
  rcases hf : (step_candidates 0 0).find? (tick_fits 0 0 T) with _ | s
  · rw [Option.getD_none, hmag]
    norm_num
  · rw [Option.getD_some]
    have hs := List.mem_of_find?_eq_some hf
    rw [step_candidates, hmag] at hs
    simp only [zero_mul, List.mem_map] at hs
    obtain ⟨k, -, hk⟩ := hs
    exact hk.symm

theorem max_abs_003_097_pos : 0 < max |(3 : ℚ)/100| |(97 : ℚ)/100| :=
  lt_of_lt_of_le (by norm_num : (0:ℚ) < |(97 : ℚ)/100|) (le_max_right _ _)

theorem mem_step_candidates_003_097 : (1 : ℚ)/10 ∈ step_candidates (3/100 : ℚ) (97/100 : ℚ) := by
  rw [step_candidates, mag_003_097, step_factors]
  simp only [List.map_cons, List.map_nil, List.mem_cons, List.not_mem_nil, or_false]
  norm_num

theorem fit_003_097 :
    (y_max_rounded (3/100 : ℚ) (97/100 : ℚ) - y_min_rounded (3/100 : ℚ) (97/100 : ℚ)) /
      ((1 : ℚ)/10) ≤ ((10 : ℤ) : ℚ) := by
  rw [prov_min_003_097, prov_max_003_097]
  norm_num

/-- Witness for C1 at (0.03, 0.97, 10). -/
theorem adjust_limits_tick_bound_witness :
    (y_max_rounded (3/100 : ℚ) (97/100 : ℚ) - y_min_rounded (3/100 : ℚ) (97/100 : ℚ)) /
        chosen_step (3/100 : ℚ) (97/100 : ℚ) 10 ≤ ((10 : ℤ) : ℚ) ∧
    ((adjust_limits (3/100 : ℚ) (97/100 : ℚ) 10).2.1 -
        (adjust_limits (3/100 : ℚ) (97/100 : ℚ) 10).1) /
      (adjust_limits (3/100 : ℚ) (97/100 : ℚ) 10).2.2 ≤ ((10 : ℤ) : ℚ) + 1 :=
  adjust_limits_tick_bound (3/100) (97/100) 10 (by norm_num) max_abs_003_097_pos
    (by norm_num) ⟨1/10, mem_step_candidates_003_097, fit_003_097⟩

/-- Witness for C2 at (0.03, 0.97, 10). -/
theorem adjust_limits_expands_witness :
    (adjust_limits (3/100 : ℚ) (97/100 : ℚ) 10).1 ≤ 3/100 ∧
    (97 : ℚ)/100 ≤ (adjust_limits (3/100 : ℚ) (97/100 : ℚ) 10).2.1 ∧
    0 < (adjust_limits (3/100 : ℚ) (97/100 : ℚ) 10).2.2 :=
  adjust_limits_expands (3/100) (97/100) 10 (by norm_num) max_abs_003_097_pos

/-- Witness for C3 at (0.03, 0.97, 10). -/
theorem chosen_step_selection_witness :
    chosen_step (3/100 : ℚ) (97/100 : ℚ) 10 ∈ step_candidates (3/100 : ℚ) (97/100 : ℚ) ∧
    (y_max_rounded (3/100 : ℚ) (97/100 : ℚ) - y_min_rounded (3/100 : ℚ) (97/100 : ℚ)) /
      chosen_step (3/100 : ℚ) (97/100 : ℚ) 10 ≤ ((10 : ℤ) : ℚ) := by
  have h := (chosen_step_selection (3/100) (97/100) 10 max_abs_003_097_pos).1
    ⟨1/10, mem_step_candidates_003_097, fit_003_097⟩
  exact ⟨h.1, h.2.1⟩

theorem last_friday_le (o : ℤ) : last_friday o ≤ o := by
  simp only [last_friday, subWeekFriday, weekday]
  split_ifs <;> omega

theorem last_friday_gap (o : ℤ) : o - last_friday o < 7 := by
  simp only [last_friday, subWeekFriday, weekday]
  split_ifs <;> omega

theorem last_friday_weekday (o : ℤ) : weekday (last_friday o) = 4 := by
  simp only [last_friday, subWeekFriday, weekday]
  split_ifs <;> omega

theorem last_friday_greatest (o f : ℤ) (hf : weekday f = 4) (hle : f ≤ o) :
    f ≤ last_friday o := by
  simp only [weekday] at hf
  simp only [last_friday, subWeekFriday, weekday]
  split_ifs <;> omega

theorem toOrd_year_gap (qm a b : ℤ) (hm : qm ∈ quarter_months) (hab : a < b) :
    toOrd a qm (daysInMonth a qm) + 7 ≤ toOrd b qm (daysInMonth b qm) := by
  simp only [quarter_months, List.mem_cons, List.not_mem_nil, or_false] at hm
  rcases hm with rfl | rfl | rfl | rfl <;>
    · norm_num [toOrd, daysInMonth]
      omega

theorem target_day_strictMono (qm s a b : ℤ) (hm : qm ∈ quarter_months) (hab : a < b) :
    target_day a qm s < target_day b qm s := by
  have hgap := toOrd_year_gap qm a b hm hab
  have h1 := last_friday_le (toOrd a qm (daysInMonth a qm))
  have h2 := last_friday_gap (toOrd b qm (daysInMonth b qm))
  rw [target_day, target_day]
  omega

theorem mem_year_range (ymin ymax y : ℤ) :
    y ∈ year_range ymin ymax ↔ ymin ≤ y ∧ y ≤ ymax := by
  rw [year_range, List.mem_map]
  constructor
  · rintro ⟨i, hi, rfl⟩
    rw [List.mem_range] at hi
    omega
  · rintro ⟨h1, h2⟩
    refine ⟨(y - ymin).toNat, ?_, ?_⟩
    · rw [List.mem_range]
      omega
    · omega

theorem year_range_pairwise (ymin ymax : ℤ) : (year_range ymin ymax).Pairwise (· < ·) := by
  rw [year_range, List.pairwise_map]
  refine (List.pairwise_lt_range _).imp ?_
  intro a b hab
  omega

theorem month_anchor_dates_pairwise (index : List Date) (s ymin ymax qm : ℤ)
    (hm : qm ∈ quarter_months) :
    (month_anchor_dates index s ymin ymax qm).Pairwise (· < ·) := by
  rw [month_anchor_dates, List.pairwise_filterMap]
  refine (year_range_pairwise ymin ymax).imp ?_
  intro a b hab x hx y hy
  simp only [Option.mem_def] at hx hy
  split_ifs at hx hy with h1 h2
  all_goals try cases hx
  all_goals try cases hy
  all_goals exact target_day_strictMono qm s a b hm hab

theorem calc_quarterly_eq (index : List Date) (s ymin ymax : ℤ)
    (hmin : listMin (index.map Date.year) = some ymin)
    (hmax : listMax (index.map Date.year) = some ymax) :
    calculate_quarterly_dates index s =
      some (quarter_months.flatMap (month_anchor_dates index s ymin ymax)) := by
  rw [calculate_quarterly_dates, hmin, hmax]

/-- C6: for each quarter-ending month m in {3, 6, 9, 12} and each year y of the
index's year range, the anchor candidate is the latest Friday on or before the
last calendar day of month m of year y (that day itself when it is a Friday),
minus shift_back_days days; the candidate is in the output iff it is a member
of the index (non-members are discarded silently, no error path exists). -/
theorem calculate_quarterly_dates_anchor (index : List Date) (s : ℤ) (out : List ℤ)
    (ymin ymax y m : ℤ)
    (hmin : listMin (index.map Date.year) = some ymin)
    (hmax : listMax (index.map Date.year) = some ymax)
    (hout : calculate_quarterly_dates index s = some out)
    (hm : m ∈ quarter_months) (hy1 : ymin ≤ y) (hy2 : y ≤ ymax) :
    (weekday (last_friday (toOrd y m (daysInMonth y m))) = 4 ∧
      last_friday (toOrd y m (daysInMonth y m)) ≤ toOrd y m (daysInMonth y m) ∧
      (∀ f : ℤ, weekday f = 4 → f ≤ toOrd y m (daysInMonth y m) →
        f ≤ last_friday (toOrd y m (daysInMonth y m))) ∧
      target_day y m s = last_friday (toOrd y m (daysInMonth y m)) - s) ∧
    (target_day y m s ∈ out ↔ target_day y m s ∈ index.map Date.ord) := by
  have hout2 := calc_quarterly_eq index s ymin ymax hmin hmax
  rw [hout] at hout2
  injection hout2 with houteq
  subst houteq
  refine ⟨⟨last_friday_weekday _, last_friday_le _,
    fun f hf hfle => last_friday_greatest _ f hf hfle, rfl⟩, ?_, ?_⟩
  · intro ht
    rw [List.mem_flatMap] at ht
    obtain ⟨qm, hqm, hmem⟩ := ht
    rw [month_anchor_dates, List.mem_filterMap] at hmem
    obtain ⟨y2, hy2mem, hif⟩ := hmem
    by_cases hx : target_day y2 qm s ∈ index.map Date.ord
    · simp only [hx, if_true] at hif
      injection hif with hif2
      exact hif2 ▸ hx
    · simp only [hx, if_false] at hif
      cases hif
  · intro ht
    rw [List.mem_flatMap]
    refine ⟨m, hm, ?_⟩
    rw [month_anchor_dates, List.mem_filterMap]
    refine ⟨y, (mem_year_range ymin ymax y).mpr ⟨hy1, hy2⟩, ?_⟩
    simp only [ht, if_true]

/-- Witness for C6 at the concrete one-element index {2023-06-12}. -/
theorem calculate_quarterly_dates_anchor_witness :
    weekday (last_friday (toOrd 2023 6 (daysInMonth 2023 6))) = 4 ∧
    (target_day 2023 6 18 ∈ [toOrd 2023 6 12] ↔
      target_day 2023 6 18 ∈ ([⟨2023, 6, 12⟩] : List Date).map Date.ord) := by
  have h := calculate_quarterly_dates_anchor [⟨2023, 6, 12⟩] 18 [toOrd 2023 6 12]
    2023 2023 2023 6 rfl rfl (by decide) (by decide) le_rfl le_rfl
  exact ⟨h.1.1, h.2⟩

/-- C7: with the one-element valid set {2023-06-12}, year range 2023..2023 and
shift_back_days = 18, the output is exactly [2023-06-12]: June 30 2023 (the
last day of June) is a Friday, and shifting it back 18 days gives June 12
2023, which is in the valid set. -/
theorem calculate_quarterly_dates_single :
    calculate_quarterly_dates [⟨2023, 6, 12⟩] 18 = some [toOrd 2023 6 12] ∧
    daysInMonth 2023 6 = 30 ∧ weekday (toOrd 2023 6 30) = 4 ∧
    toOrd 2023 6 30 - 18 = toOrd 2023 6 12 :=
  ⟨by decide, by decide, by decide, by decide⟩

/-- C8: the output is the concatenation of the per-quarter-month groups in the
fixed order [3, 6, 9, 12]; within each group the emitted dates are strictly
increasing (years ascending); and the whole sequence is not chronological in
general, exhibited by a concrete index spanning 2022-2023. -/
theorem calculate_quarterly_dates_order :
    (∀ (index : List Date) (s ymin ymax : ℤ) (out : List ℤ),
      listMin (index.map Date.year) = some ymin →
      listMax (index.map Date.year) = some ymax →
      calculate_quarterly_dates index s = some out →
      out = quarter_months.flatMap (month_anchor_dates index s ymin ymax) ∧
      ∀ qm ∈ quarter_months, (month_anchor_dates index s ymin ymax qm).Pairwise (· < ·)) ∧
    (calculate_quarterly_dates [⟨2022, 3, 7⟩, ⟨2023, 3, 13⟩, ⟨2022, 6, 6⟩] 18 =
        some [toOrd 2022 3 7, toOrd 2023 3 13, toOrd 2022 6 6] ∧
      ¬ List.Pairwise (· ≤ ·) [toOrd 2022 3 7, toOrd 2023 3 13, toOrd 2022 6 6]) := by
  constructor
  · intro index s ymin ymax out hmin hmax hout
    have hout2 := calc_quarterly_eq index s ymin ymax hmin hmax
    rw [hout] at hout2
    injection hout2 with houteq
    refine ⟨houteq, ?_⟩
    intro qm hqm
    exact month_anchor_dates_pairwise index s ymin ymax qm hqm
  · exact ⟨by decide, by decide⟩

/-- Witness for C8 at the concrete one-element index. -/
theorem calculate_quarterly_dates_order_witness :
    [toOrd 2023 6 12] =
      quarter_months.flatMap (month_anchor_dates [⟨2023, 6, 12⟩] 18 2023 2023) ∧
    ∀ qm ∈ quarter_months,
      (month_anchor_dates [⟨2023, 6, 12⟩] 18 2023 2023 qm).Pairwise (· < ·) :=
  calculate_quarterly_dates_order.1 [⟨2023, 6, 12⟩] 18 2023 2023 [toOrd 2023 6 12]
    rfl rfl (by decide)

/-- C9 (amended): on an empty index the function fails rather than returning an
empty sequence (pandas min/max of an empty index is NaN and range(NaN, ...)
raises a TypeError; modelled by none); on every nonempty index the function
returns a result — there is no other error case, and a valid set matching no
candidate simply yields an empty list. -/
theorem calculate_quarterly_dates_empty :
    (∀ s : ℤ, calculate_quarterly_dates [] s = none) ∧
    ∀ (index : List Date) (s : ℤ), index ≠ [] →
      (calculate_quarterly_dates index s).isSome = true := by
  constructor
  · intro s
    rfl
  · intro index s h
    rcases index with _ | ⟨d, rest⟩
    · exact absurd rfl h
    · rfl

/-- C9 (counterexample): on the empty valid set the model returns none — the
failure of pandas range(NaN, ...) — not the empty sequence the claim asserts. -/
theorem calculate_quarterly_dates_empty_cex :
    calculate_quarterly_dates [] 18 = none ∧ calculate_quarterly_dates [] 18 ≠ some [] :=
  ⟨rfl, by decide⟩

/-- Witness for C9 on a nonempty index. -/
theorem calculate_quarterly_dates_empty_witness :
    (calculate_quarterly_dates [⟨2023, 6, 12⟩] 18).isSome = true :=
  calculate_quarterly_dates_empty.2 [⟨2023, 6, 12⟩] 18 (by decide)

/-- C10: get_font_size always returns one of {7, 8, 9, 10}, and it is monotone
non-increasing in the length of the input string. -/
theorem get_font_size_range_antitone :
    (∀ s : String, get_font_size s = 7 ∨ get_font_size s = 8 ∨
      get_font_size s = 9 ∨ get_font_size s = 10) ∧
    ∀ s t : String, s.length ≤ t.length → get_font_size t ≤ get_font_size s := by
  constructor
  · intro s
    simp only [get_font_size]
    split_ifs <;> simp
  · intro s t h
    simp only [get_font_size]
    split_ifs <;> omega

/-- Witness for C10 on concrete strings. -/
theorem get_font_size_witness :
    (get_font_size "close_d" = 7 ∨ get_font_size "close_d" = 8 ∨
      get_font_size "close_d" = 9 ∨ get_font_size "close_d" = 10) ∧
    get_font_size "a_longer_column_label" ≤ get_font_size "close_d" :=
  ⟨get_font_size_range_antitone.1 "close_d",
   get_font_size_range_antitone.2 "close_d" "a_longer_column_label" (by decide)⟩
